import Mathlib

/-
  Verification development for the commic repository, a commit-message
  generator. The embedding mirrors, over lists of characters, the two core
  source files: src/validation/ConventionalCommitsValidator.ts and
  src/ai/AIService.ts (first version in each file, the one the claim line
  numbers refer to). JavaScript strings are modelled as List Char; the
  regular expressions of the source are compiled by hand into
  deterministic matching functions, with comments explaining why the
  backtracking of the JavaScript engine is deterministic for each pattern.
-/

abbrev Str := List Char

/-- JavaScript whitespace class, the set matched by a backslash-s atom and
removed by String.prototype.trim: tab, newline, vertical tab, form feed,
carriage return, space, and the Unicode space characters. -/
def isJsWs (c : Char) : Bool :=
  c == ' ' || c == '\t' || c == '\n' || c == '\x0b' || c == '\x0c' || c == '\r' ||
  c == ' ' || c == ' ' || (decide (' ' ≤ c) && decide (c ≤ ' ')) ||
  c == ' ' || c == ' ' || c == ' ' || c == ' ' || c == '　' || c == '﻿'

/-- JavaScript line terminators, the characters a dot atom never matches. -/
def isLineTerm (c : Char) : Bool :=
  c == '\n' || c == '\r' || c == ' ' || c == ' '

/-- JavaScript word-character class (backslash-w): ASCII letters, digits,
underscore. -/
def isWordChar (c : Char) : Bool :=
  c.isAlpha || c.isDigit || c == '_'

/-- First character is an ASCII capital letter: the test of the regex
caret-A-to-Z in the validator. -/
def startsWithUpper : Str → Bool
  | [] => false
  | c :: _ => decide ('A' ≤ c) && decide (c ≤ 'Z')

/-- JavaScript toLowerCase restricted to ASCII, which is all the source
relies on. -/
def toLowerStr (s : Str) : Str := s.map Char.toLower

/-- JavaScript String.prototype.trim: strip JS whitespace from both ends. -/
def jsTrim (s : Str) : Str :=
  ((s.dropWhile isJsWs).reverse.dropWhile isJsWs).reverse

/-- JavaScript split on the newline character: always returns at least one
piece, mirroring message.split with a newline separator. -/
def splitOnNl : Str → List Str
  | [] => [[]]
  | c :: rest =>
    if c = '\n' then [] :: splitOnNl rest
    else
      match splitOnNl rest with
      | [] => [[c]]
      | h :: t => (c :: h) :: t

/-- lines[0] of a JavaScript split on newline. -/
def line0 (m : Str) : Str := (splitOnNl m).headD []

/-- JavaScript split on a literal separator string (leftmost,
non-overlapping), implemented with fuel; fuel of length plus one always
suffices because every step consumes at least one character. -/
def splitOnStrGo (sep : Str) : Nat → Str → Str → List Str
  | 0, s, cur => [cur.reverse ++ s]
  | fuel + 1, s, cur =>
    match s with
    | [] => [cur.reverse]
    | c :: rest =>
      if sep.isPrefixOf s then
        cur.reverse :: splitOnStrGo sep fuel (s.drop sep.length) []
      else
        splitOnStrGo sep fuel rest (c :: cur)

def splitOnStr (sep s : Str) : List Str := splitOnStrGo sep (s.length + 1) s []

/-- JavaScript String.prototype.includes: the needle occurs somewhere in
the haystack. -/
def containsSub (needle : Str) : Str → Bool
  | [] => needle.isEmpty
  | c :: rest => needle.isPrefixOf (c :: rest) || containsSub needle rest

namespace ConventionalCommitsValidator

/-- The closed set of valid commit types from the validator source. -/
def VALID_TYPES : List Str :=
  ["feat".data, "fix".data, "docs".data, "style".data, "refactor".data,
   "test".data, "chore".data, "perf".data, "ci".data, "build".data]

structure ValidationResult where
  valid : Bool
  errors : List Str
deriving DecidableEq, Repr

structure ParsedCommitMessage where
  type : Str
  scope : Option Str
  breaking : Bool
  description : Str
  body : Option Str
deriving DecidableEq, Repr

/-- Capture groups of a successful match of COMMIT_PATTERN against a
subject line: group 1 (type), group 2 (scope with parentheses), group 3
(the breaking bang, as a flag), group 4 (description). -/
structure CommitMatch where
  type : Str
  scopeWithParens : Option Str
  breaking : Bool
  description : Str
deriving DecidableEq, Repr

/-- The optional scope group of COMMIT_PATTERN, an opening parenthesis,
one or more characters in the class a-z 0-9 hyphen, and a closing
parenthesis. Backtracking is deterministic: if the next character is an
opening parenthesis and the group fails, the empty alternative also fails
because the pattern then requires a bang or a colon at that parenthesis. -/
def isScopeChar (c : Char) : Bool :=
  (decide ('a' ≤ c) && decide (c ≤ 'z')) || c.isDigit || c == '-'

def matchScope : Str → Option (Option Str × Str)
  | '(' :: rest =>
    if (rest.takeWhile isScopeChar).isEmpty then none
    else
      match rest.dropWhile isScopeChar with
      | ')' :: r4 => some (some ('(' :: (rest.takeWhile isScopeChar ++ [')'])), r4)
      | _ => none
  | r1 => some (none, r1)

/-- COMMIT_PATTERN from the validator source: caret, word characters
(group 1), optional parenthesized scope (group 2), optional bang
(group 3), a colon, one whitespace character, one or more non-terminator
characters up to the end (group 4). The greedy word-character run is
deterministic because no shorter run can be followed by a parenthesis,
bang, or colon (those are not word characters); the bang is deterministic
because skipping a present bang leaves a colon test against the bang. -/
def matchCommitPattern (s : Str) : Option CommitMatch :=
  if (s.takeWhile isWordChar).isEmpty then none
  else
    match matchScope (s.dropWhile isWordChar) with
    | none => none
    | some (sc, r4) =>
      match r4 with
      | '!' :: ':' :: w :: d =>
        if isJsWs w && !d.isEmpty && d.all (fun c => !isLineTerm c) then
          some ⟨s.takeWhile isWordChar, sc, true, d⟩
        else none
      | ':' :: w :: d =>
        if isJsWs w && !d.isEmpty && d.all (fun c => !isLineTerm c) then
          some ⟨s.takeWhile isWordChar, sc, false, d⟩
        else none
      | _ => none

def emptyMessageError : Str := "Commit message cannot be empty".data

def formatErrorMsg : Str := "Subject line must follow format: type(scope)?: description".data

def typeErrorMsg (t : Str) : Str :=
  "Invalid type \"".data ++ t ++ "\". Must be one of: ".data ++
    List.intercalate ", ".data VALID_TYPES

def descEmptyErrorMsg : Str := "Description cannot be empty".data

def descUpperErrorMsg : Str := "Description should start with lowercase letter".data

def subjectLengthErrorMsg : Str := "Subject line should be 72 characters or less".data

def blankLineErrorMsg : Str := "There should be a blank line between subject and body".data

/-- validate from the validator source: empty-message check, subject-line
pattern check (each short-circuits with a single error), then the five
independent checks appended in order: type, empty description, uppercase
first description letter, subject length, blank second line. -/
def validate (m : Str) : ValidationResult :=
  if (jsTrim m).isEmpty then { valid := false, errors := [emptyMessageError] }
  else
    match matchCommitPattern (line0 m) with
    | none => { valid := false, errors := [formatErrorMsg] }
    | some mr =>
      let errors : List Str :=
        (if VALID_TYPES.contains mr.type then [] else [typeErrorMsg mr.type]) ++
        (if mr.description.isEmpty || (jsTrim mr.description).isEmpty then [descEmptyErrorMsg] else []) ++
        (if !mr.description.isEmpty && startsWithUpper mr.description then [descUpperErrorMsg] else []) ++
        (if 72 < (line0 m).length then [subjectLengthErrorMsg] else []) ++
        (if 1 < (splitOnNl m).length ∧ (jsTrim ((splitOnNl m).getD 1 [])).isEmpty = false
          then [blankLineErrorMsg] else [])
      { valid := errors.isEmpty, errors := errors }

/-- parseCommitMessage from the validator source: null on an unmatched
subject line, otherwise the decomposition, with breaking true when the
bang is present or the text BREAKING CHANGE: occurs anywhere in the
message, and body the third line onward joined by newlines and trimmed. -/
def parseCommitMessage (m : Str) : Option ParsedCommitMessage :=
  match matchCommitPattern (line0 m) with
  | none => none
  | some mr =>
    some { type := mr.type,
           scope := mr.scopeWithParens.map (fun s => (s.drop 1).dropLast),
           breaking := mr.breaking || containsSub "BREAKING CHANGE:".data m,
           description := mr.description,
           body := if 2 < (splitOnNl m).length
             then some (jsTrim (List.intercalate ['\n'] ((splitOnNl m).drop 2)))
             else none }

/-- isSingleLine from the validator source: exactly one line remains after
discarding blank lines. -/
def isSingleLine (m : Str) : Bool :=
  ((splitOnNl m).filter (fun l => !(jsTrim l).isEmpty)).length == 1

end ConventionalCommitsValidator

namespace AIService

open ConventionalCommitsValidator

inductive SuggestionKind where
  | singleLine
  | multiLine
deriving DecidableEq, Repr

/-- CommitSuggestion from src/types: the message text and the derived
single-line or multi-line kind (the field is named type in the source). -/
structure CommitSuggestion where
  message : Str
  type : SuggestionKind
deriving DecidableEq, Repr

/-- GitDiff from src/types. -/
structure GitDiff where
  staged : Str
  unstaged : Str
  hasChanges : Bool
deriving DecidableEq, Repr

/-- Match of the numbered-item pattern (caret, digits, dot, whitespace
run) at the head of the list: returns the remainder after the greedy
whitespace run and whether the character just before the remainder is a
line terminator (which is what makes the next position a line start for
the multiline caret). Greediness is deterministic: a shorter digit run is
still followed by a digit, not a dot, and nothing follows the whitespace
run in the pattern. -/
def tryNumMatch (l : Str) : Option (Str × Bool) :=
  if (l.takeWhile Char.isDigit).isEmpty then none
  else
    match l.dropWhile Char.isDigit with
    | '.' :: r2 =>
      if (r2.takeWhile isJsWs).isEmpty then none
      else some (r2.dropWhile isJsWs, isLineTerm ((r2.takeWhile isJsWs).getLastD ' '))
    | _ => none

/-- Test of the numbered-item pattern with the multiline flag: some line
start carries a digits-dot-whitespace match. The Bool argument is whether
the current position is a line start. -/
def hasNumberedMatch : Str → Bool → Bool
  | [], _ => false
  | c :: rest, ls =>
    (ls && (tryNumMatch (c :: rest)).isSome) || hasNumberedMatch rest (isLineTerm c)

/-- JavaScript split on the numbered-item regex with the multiline flag:
pieces between the line-start matches. Fuel of length plus one suffices
since every step consumes at least one character. -/
def splitNumberedGo : Nat → Str → Bool → Str → List Str
  | 0, s, _, cur => [cur.reverse ++ s]
  | fuel + 1, s, ls, cur =>
    match s with
    | [] => [cur.reverse]
    | c :: rest =>
      if ls then
        match tryNumMatch s with
        | some (r, ls2) => cur.reverse :: splitNumberedGo fuel r ls2 []
        | none => splitNumberedGo fuel rest (isLineTerm c) (c :: cur)
      else splitNumberedGo fuel rest (isLineTerm c) (c :: cur)

def splitNumbered (s : Str) : List Str := splitNumberedGo (s.length + 1) s true []

/-- Test of the pattern caret-digits-dot used by the strategy-3 filter. -/
def numDotAt (l : Str) : Bool :=
  !(l.takeWhile Char.isDigit).isEmpty &&
    (match l.dropWhile Char.isDigit with
     | '.' :: _ => true
     | _ => false)

/-- JavaScript split on the double-newline regex (two or more consecutive
newlines, greedy). -/
def splitDoubleNlGo : Nat → Str → Str → List Str
  | 0, s, cur => [cur.reverse ++ s]
  | fuel + 1, s, cur =>
    match s with
    | [] => [cur.reverse]
    | '\n' :: '\n' :: rest =>
      cur.reverse :: splitDoubleNlGo fuel (rest.dropWhile (fun c => c == '\n')) []
    | c :: rest => splitDoubleNlGo fuel rest (c :: cur)

def splitDoubleNl (s : Str) : List Str := splitDoubleNlGo (s.length + 1) s []

/-- The commit-type alternation of the AIService regexes: the first listed
type that is a literal prefix of the input, with its length. The
alternatives are mutually non-prefix, so at most one can match at a given
position. -/
def matchTypeAt (l : Str) : Option Nat :=
  (VALID_TYPES.find? (fun t => t.isPrefixOf l)).map List.length

/-- The scope group of the AIService regexes: parenthesis, one or more
non-closing-parenthesis characters (greedy, deterministic because the
class excludes the closing parenthesis), closing parenthesis. Returns the
consumed length, zero when no parenthesis follows, none when a
parenthesis opens but the group cannot complete (then the whole match at
this position fails, since the empty alternative leaves a parenthesis
where a bang or colon is required). -/
def scopeLenAt : Str → Option Nat
  | '(' :: rest =>
    if (rest.takeWhile (fun c => c != ')')).isEmpty then none
    else
      match rest.dropWhile (fun c => c != ')') with
      | ')' :: _ => some ((rest.takeWhile (fun c => c != ')')).length + 2)
      | _ => none
  | _ => some 0

/-- Match of the test pattern caret, type alternation, optional scope,
optional bang, colon, one whitespace character, at the head of the list:
returns the consumed length. This is the pattern used by the strategy-4
filter, the cleanup filter, and the strategy-6 line classifier. -/
def tryTypeColonWs (l : Str) : Option Nat :=
  match matchTypeAt l with
  | none => none
  | some tl =>
    match scopeLenAt (l.drop tl) with
    | none => none
    | some sl =>
      let r2 := l.drop (tl + sl)
      let (bl, r3) : Nat × Str :=
        match r2 with
        | '!' :: r => (1, r)
        | _ => (0, r2)
      match r3 with
      | ':' :: w :: _ => if isJsWs w then some (tl + sl + bl + 2) else none
      | _ => none

/-- Greedy extension of a strategy-5 match across following lines: a
newline plus a nonempty line extends the match unless the line starts
with three hyphens or with digits and a dot (the negative lookahead).
Returns the total consumed length. -/
def extLines : Nat → Str → Nat → Nat
  | 0, _, acc => acc
  | fuel + 1, s, acc =>
    match s with
    | '\n' :: rest =>
      if "---".data.isPrefixOf rest then acc
      else if numDotAt rest then acc
      else
        if (rest.takeWhile (fun c => c != '\n')).isEmpty then acc
        else
          extLines fuel (rest.drop (rest.takeWhile (fun c => c != '\n')).length)
            (acc + 1 + (rest.takeWhile (fun c => c != '\n')).length)
    | _ => acc

/-- Match of the full strategy-5 commit pattern at the head of the list:
the type-colon-whitespace head, then one or more non-newline characters,
then the greedy line extension. Returns the consumed length. -/
def tryCommitMatchAt (l : Str) : Option Nat :=
  match tryTypeColonWs l with
  | none => none
  | some hl =>
    if ((l.drop hl).takeWhile (fun c => c != '\n')).isEmpty then none
    else
      some (extLines (l.length + 1)
        (l.drop (hl + ((l.drop hl).takeWhile (fun c => c != '\n')).length))
        (hl + ((l.drop hl).takeWhile (fun c => c != '\n')).length))

/-- JavaScript String.prototype.match with the global flag for the
strategy-5 pattern: all matches, scanning left to right, non-overlapping,
resuming after each match. -/
def commitMatchesGo : Nat → Str → List Str
  | 0, _ => []
  | fuel + 1, s =>
    match s with
    | [] => []
    | _ :: rest =>
      match tryCommitMatchAt s with
      | some n => s.take n :: commitMatchesGo fuel (s.drop n)
      | none => commitMatchesGo fuel rest

def commitMatches (s : Str) : List Str := commitMatchesGo (s.length + 1) s

/-- Strategy 6, the line-by-line state machine: a line whose trimmed text
matches the type-prefixed pattern starts a new message; a nonempty
non-matching line extends the current message; a blank line is preserved
inside the current message; lines before the first match are discarded;
the last accumulating message is flushed at the end. -/
def extractTypeLines (response : Str) : List Str :=
  let step := fun (st : List Str × Str) (line : Str) =>
    if (tryTypeColonWs (jsTrim line)).isSome then
      (if st.2.isEmpty then st.1 else st.1 ++ [jsTrim st.2], jsTrim line)
    else if !st.2.isEmpty && !(jsTrim line).isEmpty then
      (st.1, st.2 ++ '\n' :: jsTrim line)
    else if !st.2.isEmpty && (jsTrim line).isEmpty then
      (st.1, st.2 ++ ['\n'])
    else st
  let fin := (splitOnNl response).foldl step ([], [])
  if fin.2.isEmpty then fin.1 else fin.1 ++ [jsTrim fin.2]

/-- Cleanup replace 1: strip a case-insensitive leading editorial
preamble (Here are, Here's, Generated, Commit message, Commit messages),
an optional colon, and a whitespace run. The alternation is
deterministic: no two alternatives can both be prefixes, and the plural s
is taken greedily. -/
def stripPreamble (m : Str) : Str :=
  let lower := toLowerStr m
  let plen : Option Nat :=
    if "here are".data.isPrefixOf lower then some 8
    else if "here\x27s".data.isPrefixOf lower then some 6
    else if "generated".data.isPrefixOf lower then some 9
    else if "commit messages".data.isPrefixOf lower then some 15
    else if "commit message".data.isPrefixOf lower then some 14
    else none
  match plen with
  | none => m
  | some n =>
    let r1 := m.drop n
    let r2 := match r1 with
      | ':' :: r => r
      | _ => r1
    r2.dropWhile isJsWs

/-- Cleanup replace 2: strip one leading list-bullet character (hyphen,
asterisk, or the three bytes of a misencoded bullet glyph) and the
whitespace run after it. -/
def stripBullet (m : Str) : Str :=
  match m with
  | c :: rest =>
    if c == '-' || c == '*' || c == 'â' || c == '€' || c == '¢' then
      rest.dropWhile isJsWs
    else m
  | [] => m

/-- Strategy 1 of parseResponse: if the response contains a three-hyphen
line surrounded by newlines, split on it; otherwise the message list is
still empty. -/
def stage1 (r : Str) : List Str :=
  if containsSub "\n---\n".data r then
    ((splitOnStr "\n---\n".data r).map jsTrim).filter (fun m => !m.isEmpty)
  else []

/-- Strategy 2: with zero or one message so far, split on the bare
three-hyphen token anywhere. -/
def stage2 (r : Str) : List Str :=
  let m := stage1 r
  if m.length == 0 || m.length == 1 then
    ((splitOnStr "---".data r).map jsTrim).filter (fun x => !x.isEmpty)
  else m

/-- Strategy 3: with zero or one message so far and a numbered-item match
present, split on the numbered-item pattern and drop empty pieces and
pieces still starting with digits and a dot. -/
def stage3 (r : Str) : List Str :=
  let m := stage2 r
  if (m.length == 0 || m.length == 1) && hasNumberedMatch r true then
    ((splitNumbered r).map jsTrim).filter (fun x => !x.isEmpty && !numDotAt x)
  else m

/-- Strategy 4: with zero or one message so far and a double newline
present, split on double-newline runs and keep only pieces that start
with the type-prefixed pattern. -/
def stage4 (r : Str) : List Str :=
  let m := stage3 r
  if (m.length == 0 || m.length == 1) && containsSub "\n\n".data r then
    ((splitDoubleNl r).map jsTrim).filter (fun x => !x.isEmpty && (tryTypeColonWs x).isSome)
  else m

/-- Strategy 5: only with zero messages so far, collect all global
matches of the commit pattern; a null match result leaves the list
unchanged. -/
def stage5 (r : Str) : List Str :=
  let m := stage4 r
  if m.length == 0 then
    if (commitMatches r).isEmpty then m else (commitMatches r).map jsTrim
  else m

/-- Strategy 6: only with zero messages so far, run the line-by-line
state machine. -/
def stage6 (r : Str) : List Str :=
  let m := stage5 r
  if m.length == 0 then extractTypeLines r else m

/-- The control-flow condition under which parseResponse reaches the
strategy-5 scan: the response is not blank (else the function returned
the empty list immediately) and the message list after strategies 1 to 4
is empty (the guard in the source is a comparison of the length with
zero). -/
def strategyFiveAttempted (r : Str) : Bool :=
  !(jsTrim r).isEmpty && (stage4 r).isEmpty

/-- The cleanup pass of parseResponse: strip preamble and bullet, trim,
and keep only nonempty texts that start with the type-prefixed pattern. -/
def cleanedMessages (r : Str) : List Str :=
  ((stage6 r).map (fun msg => jsTrim (stripBullet (stripPreamble msg)))).filter
    (fun msg => !msg.isEmpty && (tryTypeColonWs msg).isSome)

/-- parseResponse from the AIService source: empty input short-circuits,
then the strategy cascade, the cleanup pass, and the wrapping of each
message with its derived kind. -/
def parseResponse (r : Str) : List CommitSuggestion :=
  if (jsTrim r).isEmpty then []
  else
    (cleanedMessages r).map (fun message =>
      { message := jsTrim message,
        type := if isSingleLine message then SuggestionKind.singleLine
                else SuggestionKind.multiLine })

/-- filterValidSuggestions from the AIService source: keep the
suggestions whose message the validator accepts. -/
def filterValidSuggestions (l : List CommitSuggestion) : List CommitSuggestion :=
  l.filter (fun s => (validate s.message).valid)

/-- meetsMinimumRequirements from the AIService source: at least two
suggestions, at least one of them single-line. -/
def meetsMinimumRequirements (l : List CommitSuggestion) : Bool :=
  if l.length < 2 then false
  else if (l.filter (fun s => s.type == SuggestionKind.singleLine)).length < 1 then false
  else true

/-- The sort by the comparator that puts single-line suggestions first.
JavaScript array sort is stable, so the result is the stable partition:
single-line suggestions in discovery order, then the rest. -/
def sortSingleFirst (l : List CommitSuggestion) : List CommitSuggestion :=
  l.filter (fun s => s.type == SuggestionKind.singleLine) ++
    l.filter (fun s => s.type != SuggestionKind.singleLine)

/-- generateFallbackMessage from the AIService source: keyword-based type
choice over the lowercased combined diff, then a filename taken from the
first marker line among the first five lines, else a generic description. -/
def generateFallbackMessage (diff : GitDiff) : Option Str :=
  let combinedDiff := toLowerStr (diff.staged ++ '\n' :: diff.unstaged)
  let ty : Str :=
    if containsSub "fix".data combinedDiff || containsSub "bug".data combinedDiff ||
        containsSub "error".data combinedDiff then "fix".data
    else if containsSub "feat".data combinedDiff || containsSub "add".data combinedDiff ||
        containsSub "new".data combinedDiff then "feat".data
    else if containsSub "doc".data combinedDiff || containsSub "readme".data combinedDiff then
      "docs".data
    else if containsSub "refactor".data combinedDiff then "refactor".data
    else "chore".data
  let fileChanges := ((splitOnNl combinedDiff).take 5).filter
    (fun l => "+++".data.isPrefixOf l || "---".data.isPrefixOf l)
  match fileChanges with
  | [] => some (ty ++ ": update code".data)
  | first :: _ =>
    let stripped :=
      match first with
      | a :: b :: c :: rest =>
        if (a == '+' || a == '-') && (b == '+' || b == '-') && (c == '+' || c == '-') &&
            !(rest.takeWhile isJsWs).isEmpty then
          rest.dropWhile isJsWs
        else first
      | _ => first
    let lastSeg := (splitOnStr "/".data stripped).getLastD []
    some (ty ++ ": update ".data ++ (if lastSeg.isEmpty then "files".data else lastSeg))

/-- Outcome of one external generator invocation, abstracting the racing
of the API call against the thirty-second timer: a response text, or a
rejection carrying an error message (a timeout appears as the message
Request timeout). -/
inductive GenOutcome where
  | ok (text : Str)
  | err (msg : Str)
deriving DecidableEq, Repr

/-- Result of the retry while-loop of generateCommitMessages, before the
post-loop fallback handling. -/
inductive LoopResult where
  | returned (l : List CommitSuggestion)
  | exhausted (best : List CommitSuggestion)
  | rateLimited
  | authFailed
  | timedOut
deriving DecidableEq, Repr

def maxAttempts : Nat := 3

/-- The retry while-loop of generateCommitMessages. The fuel argument is
the loop bound (the top-level call passes maxAttempts with the attempt
counter at zero, so fuel running out and the loop condition coincide);
attempts is the counter incremented at the top of each iteration; best is
the bestSuggestions accumulator. gen gives the outcome of the generator
invocation of each attempt, indexed from one. -/
def runLoop (gen : Nat → GenOutcome) : Nat → Nat → List CommitSuggestion → LoopResult
  | 0, _, best => .exhausted best
  | fuel + 1, attempts, best =>
    if maxAttempts ≤ attempts then .exhausted best
    else
      match gen (attempts + 1) with
      | .err msg =>
        let em := toLowerStr msg
        if containsSub "rate limit".data em || containsSub "quota".data em then .rateLimited
        else if containsSub "api key".data em || containsSub "auth".data em ||
            containsSub "permission".data em then .authFailed
        else if containsSub "timeout".data em || containsSub "request timeout".data em then
          if maxAttempts ≤ attempts + 1 then .timedOut
          else runLoop gen fuel (attempts + 1) best
        else runLoop gen fuel (attempts + 1) best
      | .ok text =>
        if (jsTrim text).isEmpty then runLoop gen fuel (attempts + 1) best
        else if (parseResponse text).isEmpty then runLoop gen fuel (attempts + 1) best
        else
          let valid := filterValidSuggestions (parseResponse text)
          if 0 < valid.length ∧ meetsMinimumRequirements valid = true then
            .returned ((sortSingleFirst valid).take 5)
          else
            let best2 := if 0 < valid.length ∧ best.length < valid.length then valid else best
            if 0 < valid.length ∧ valid.length < 2 ∧ attempts + 1 < maxAttempts then
              runLoop gen fuel (attempts + 1) best2
            else if 2 ≤ valid.length then .returned (valid.take 5)
            else runLoop gen fuel (attempts + 1) best2

/-- Result of a whole generateCommitMessages run: a suggestion list, or
one of the terminal errors of the error taxonomy. -/
inductive RunResult where
  | suggestions (l : List CommitSuggestion)
  | rateLimitError
  | authError
  | timeoutError
  | noValidSuggestions
deriving DecidableEq, Repr

/-- generateCommitMessages from the AIService source: the retry loop,
then the post-loop handling: a nonempty bestSuggestions is returned
truncated to five; otherwise the fallback synthesizer message becomes the
sole single-line suggestion; otherwise the terminal failure. -/
def generateCommitMessages (diff : GitDiff) (gen : Nat → GenOutcome) : RunResult :=
  match runLoop gen maxAttempts 0 [] with
  | .returned l => .suggestions l
  | .rateLimited => .rateLimitError
  | .authFailed => .authError
  | .timedOut => .timeoutError
  | .exhausted best =>
    if 1 ≤ best.length then .suggestions (best.take 5)
    else
      match generateFallbackMessage diff with
      | some msg => .suggestions [{ message := msg, type := SuggestionKind.singleLine }]
      | none => .noValidSuggestions

end AIService

section ClaimInputs

open ConventionalCommitsValidator AIService

/-- Membership property carried through the retry loop: every suggestion
validates and re-parses. -/
def GoodList (l : List CommitSuggestion) : Prop :=
  ∀ s ∈ l, (validate s.message).valid = true ∧
    (parseCommitMessage s.message).isSome = true

/-- A loop result all of whose carried lists are good. -/
def GoodRes (res : LoopResult) : Prop :=
  ∀ l, (res = LoopResult.returned l ∨ res = LoopResult.exhausted l) → GoodList l

/-- A loop result whose in-loop returned list has between two and five
entries. -/
def LenRes (res : LoopResult) : Prop :=
  ∀ l, res = LoopResult.returned l → 2 ≤ l.length ∧ l.length ≤ 5

/-- A generator that always fails with an unclassified error. -/
def genBoom : Nat → GenOutcome := fun _ => GenOutcome.err "boom".data

/-- A diff whose staged text is a marker line carrying an eighty-letter
filename. -/
def c1Diff : GitDiff :=
  { staged := "+++ b/".data ++ List.replicate 80 'a', unstaged := [], hasChanges := true }

/-- The fallback message the synthesizer produces for that diff: an
overlong subject line. -/
def c1FallbackMsg : Str := "chore: update ".data ++ List.replicate 80 'a'

/-- A generator whose first attempt yields two valid multi-line messages
and whose later attempts would fail with a quota error. -/
def genC2 : Nat → GenOutcome := fun n =>
  if n == 1 then GenOutcome.ok "feat: add x\n\nbody one\n---\nfix: fix y\n\nbody two".data
  else GenOutcome.err "quota".data

def c2SugA : CommitSuggestion :=
  { message := "feat: add x\n\nbody one".data, type := SuggestionKind.multiLine }

def c2SugB : CommitSuggestion :=
  { message := "fix: fix y\n\nbody two".data, type := SuggestionKind.multiLine }

def emptyDiff : GitDiff := { staged := [], unstaged := [], hasChanges := true }

/-- A generator whose first attempt yields one valid suggestion and whose
second and third attempts time out. -/
def genC3 : Nat → GenOutcome := fun n =>
  if n == 1 then GenOutcome.ok "feat: add login".data
  else GenOutcome.err "Request timeout".data

def c3Sug : CommitSuggestion :=
  { message := "feat: add login".data, type := SuggestionKind.singleLine }

/-- A generator that always times out. -/
def genRT : Nat → GenOutcome := fun _ => GenOutcome.err "Request timeout".data

/-- A generator that always fails with a quota error. -/
def genQuota : Nat → GenOutcome := fun _ => GenOutcome.err "Quota exceeded for project".data

/-- A generator that always yields two valid single-line messages. -/
def genW : Nat → GenOutcome := fun _ => GenOutcome.ok "feat: aa\n---\nfix: bb".data

def sugAA : CommitSuggestion :=
  { message := "feat: aa".data, type := SuggestionKind.singleLine }

def sugBB : CommitSuggestion :=
  { message := "fix: bb".data, type := SuggestionKind.singleLine }

/-- Staged text containing the fix_login marker line, but preceded by
another marker line. -/
def c9Staged : Str := "--- a/other.ts\n+++ b/src/fix_login.ts\nsome bug".data

def c9Diff : GitDiff := { staged := c9Staged, unstaged := [], hasChanges := true }

/-- Staged text whose first line is the fix_login marker line. -/
def c9wDiff : GitDiff :=
  { staged := "+++ b/src/fix_login.ts\nfix a bug".data, unstaged := [], hasChanges := true }

end ClaimInputs


section Helpers

open ConventionalCommitsValidator AIService

/-- Every character of the first line of a split on newlines is a
character of the whole string. -/
theorem mem_of_mem_line0 {m : Str} {x : Char} (hx : x ∈ line0 m) : x ∈ m := by
  induction m with
  | nil => simp [line0, splitOnNl] at hx
  | cons c rest ih =>
    unfold line0 splitOnNl at hx
    by_cases hc : c = '\n'
    · simp [hc] at hx
    · simp only [if_neg hc] at hx
      cases hsp : splitOnNl rest with
      | nil => rw [hsp] at hx; simp at hx; simp [hx]
      | cons h t =>
        rw [hsp] at hx
        simp only [List.headD_cons] at hx
        rcases List.mem_cons.mp hx with h1 | h2
        · simp [h1]
        · have : x ∈ line0 rest := by rw [line0, hsp]; simpa using h2
          exact List.mem_cons_of_mem _ (ih this)

/-- A string whose JS trim is empty consists of JS whitespace only. -/
theorem all_ws_of_jsTrim_eq_nil {m : Str} (h : jsTrim m = []) :
    ∀ x ∈ m, isJsWs x = true := by
  intro x hx
  unfold jsTrim at h
  rw [List.reverse_eq_nil_iff, List.dropWhile_eq_nil_iff] at h
  have hsplit : x ∈ m.takeWhile isJsWs ++ m.dropWhile isJsWs := by
    rw [List.takeWhile_append_dropWhile]; exact hx
  rcases List.mem_append.mp hsplit with h1 | h2
  · exact List.mem_takeWhile_imp h1
  · exact h x (List.mem_reverse.mpr h2)

/-- The remainder returned by the scope matcher is made of characters of
its input. -/
theorem matchScope_subset {r1 r4 : Str} {sc : Option Str}
    (h : matchScope r1 = some (sc, r4)) : ∀ x ∈ r4, x ∈ r1 := by
  intro x hx
  unfold matchScope at h
  split at h
  · rename_i rest
    split at h
    · exact absurd h (by simp)
    · split at h
      · rename_i r4x heq
        simp only [Option.some.injEq, Prod.mk.injEq] at h
        have hmem : x ∈ rest.dropWhile isScopeChar := by
          rw [heq]
          exact List.mem_cons_of_mem _ (h.2 ▸ hx)
        exact List.mem_cons_of_mem _ ((List.dropWhile_sublist _).subset hmem)
      · exact absurd h (by simp)
  · simp only [Option.some.injEq, Prod.mk.injEq] at h
    exact h.2 ▸ hx

/-- A successful subject-line match means the subject contains a colon. -/
theorem colon_mem_of_match {s : Str} {mr : CommitMatch}
    (h : matchCommitPattern s = some mr) : ':' ∈ s := by
  unfold matchCommitPattern at h
  have hdw : ∀ y, y ∈ s.dropWhile isWordChar → y ∈ s :=
    fun y hy => (List.dropWhile_sublist _).subset hy
  split at h
  · exact absurd h (by simp)
  · split at h
    · exact absurd h (by simp)
    · rename_i sc r4 hms
      split at h <;>
        first
          | exact hdw _ (matchScope_subset hms ':'
              (List.mem_cons_of_mem _ (List.mem_cons_self _ _)))
          | exact hdw _ (matchScope_subset hms ':' (List.mem_cons_self _ _))
          | exact absurd h (by simp)

/-- A message whose first line matches the subject pattern does not trim
to the empty string (the subject contributes a colon, which is not
whitespace). -/
theorem trim_not_empty_of_match {m : Str} {mr : CommitMatch}
    (h : matchCommitPattern (line0 m) = some mr) :
    (jsTrim m).isEmpty = false := by
  by_contra hne
  rw [Bool.not_eq_false, List.isEmpty_iff] at hne
  have hc : ':' ∈ m := mem_of_mem_line0 (colon_mem_of_match h)
  have := all_ws_of_jsTrim_eq_nil hne ':' hc
  simp [isJsWs] at this

/-- A message the validator accepts parses to a non-null decomposition. -/
theorem parse_isSome_of_valid {m : Str} (h : (validate m).valid = true) :
    (parseCommitMessage m).isSome = true := by
  unfold validate at h
  split at h
  · simp at h
  · cases hm : matchCommitPattern (line0 m) with
    | none => rw [hm] at h; simp at h
    | some mr => unfold parseCommitMessage; rw [hm]; rfl

/-- Members of the filtered suggestion list pass the validator. -/
theorem mem_filterValid {s : CommitSuggestion} {l : List CommitSuggestion}
    (h : s ∈ filterValidSuggestions l) : (validate s.message).valid = true := by
  unfold filterValidSuggestions at h
  exact (List.mem_filter.mp h).2

/-- The single-line-first sort is a permutation at the level of
membership. -/
theorem mem_of_mem_sortSingleFirst {s : CommitSuggestion} {l : List CommitSuggestion}
    (h : s ∈ sortSingleFirst l) : s ∈ l := by
  unfold sortSingleFirst at h
  rcases List.mem_append.mp h with h | h <;> exact (List.mem_filter.mp h).1

/-- The acceptance policy implies at least two suggestions. -/
theorem two_le_of_meetsMin {l : List CommitSuggestion}
    (h : meetsMinimumRequirements l = true) : 2 ≤ l.length := by
  unfold meetsMinimumRequirements at h
  split at h
  · simp at h
  · rename_i hlen; omega

/-- A predicate and its negation split the length of a filter. -/
theorem filter_not_length (p : CommitSuggestion → Bool) (l : List CommitSuggestion) :
    (l.filter p).length + (l.filter (fun s => !(p s))).length = l.length := by
  induction l with
  | nil => rfl
  | cons a t ih =>
    by_cases hp : p a = true
    · simp [List.filter_cons, hp]; omega
    · rw [Bool.not_eq_true] at hp
      simp [List.filter_cons, hp]; omega

/-- The single-line-first sort preserves length. -/
theorem length_sortSingleFirst (l : List CommitSuggestion) :
    (sortSingleFirst l).length = l.length := by
  unfold sortSingleFirst
  rw [List.length_append]
  have h := filter_not_length (fun s => s.type == SuggestionKind.singleLine) l
  have heq : (l.filter fun s => s.type != SuggestionKind.singleLine)
      = (l.filter fun s => !(s.type == SuggestionKind.singleLine)) := rfl
  rw [heq]
  exact h

end Helpers


section LoopLemmas

open ConventionalCommitsValidator AIService

theorem goodRes_rateLimited : GoodRes LoopResult.rateLimited := by
  intro l hl; rcases hl with h | h <;> simp at h

theorem goodRes_authFailed : GoodRes LoopResult.authFailed := by
  intro l hl; rcases hl with h | h <;> simp at h

theorem goodRes_timedOut : GoodRes LoopResult.timedOut := by
  intro l hl; rcases hl with h | h <;> simp at h

theorem goodRes_returned {x : List CommitSuggestion} (hx : GoodList x) :
    GoodRes (LoopResult.returned x) := by
  intro l hl
  rcases hl with h | h
  · simp only [LoopResult.returned.injEq] at h; rw [← h]; exact hx
  · simp at h

theorem goodRes_exhausted {x : List CommitSuggestion} (hx : GoodList x) :
    GoodRes (LoopResult.exhausted x) := by
  intro l hl
  rcases hl with h | h
  · simp at h
  · simp only [LoopResult.exhausted.injEq] at h; rw [← h]; exact hx

/-- Validated best sets stay validated through the conditional best
update. -/
theorem if_best_invariant {V best : List CommitSuggestion} (c : Prop) [Decidable c]
    (hbest : ∀ s ∈ best, (validate s.message).valid = true)
    (hV : ∀ s ∈ V, (validate s.message).valid = true) :
    ∀ s ∈ (if c then V else best), (validate s.message).valid = true := by
  split
  · exact hV
  · exact hbest

/-- A best set of validated suggestions is a good list. -/
theorem goodList_of_validated {x : List CommitSuggestion}
    (hx : ∀ s ∈ x, (validate s.message).valid = true) : GoodList x :=
  fun s hs => ⟨hx s hs, parse_isSome_of_valid (hx s hs)⟩

/-- Invariant of the retry loop: whenever the loop produces a list,
either through an in-loop return or through loop exit with the
accumulated best set, every member passed the validator (assuming the
incoming best set did), and therefore re-parses to a non-null value. -/
theorem runLoop_validated (gen : Nat → GenOutcome) :
    ∀ (fuel attempts : Nat) (best : List CommitSuggestion),
      (∀ s ∈ best, (validate s.message).valid = true) →
      GoodRes (runLoop gen fuel attempts best) := by
  intro fuel
  induction fuel with
  | zero =>
    intro attempts best hbest
    simp only [runLoop]
    exact goodRes_exhausted (goodList_of_validated hbest)
  | succ n ih =>
    intro attempts best hbest
    rw [runLoop]
    split
    · exact goodRes_exhausted (goodList_of_validated hbest)
    · split
      · -- generator failure
        simp only []
        split
        · exact goodRes_rateLimited
        · split
          · exact goodRes_authFailed
          · split
            · split
              · exact goodRes_timedOut
              · exact ih _ _ hbest
            · exact ih _ _ hbest
      · -- generator success
        split
        · exact ih _ _ hbest
        · split
          · exact ih _ _ hbest
          · simp only []
            split
            · exact goodRes_returned (goodList_of_validated (fun s hs =>
                mem_filterValid (mem_of_mem_sortSingleFirst (List.take_subset _ _ hs))))
            · split
              · exact ih _ _ (if_best_invariant _ hbest (fun s hs => mem_filterValid hs))
              · split
                · exact goodRes_returned (goodList_of_validated (fun s hs =>
                    mem_filterValid (List.take_subset _ _ hs)))
                · exact ih _ _ (if_best_invariant _ hbest (fun s hs => mem_filterValid hs))

theorem lenRes_rateLimited : LenRes LoopResult.rateLimited := by
  intro l h; simp at h

theorem lenRes_authFailed : LenRes LoopResult.authFailed := by
  intro l h; simp at h

theorem lenRes_timedOut : LenRes LoopResult.timedOut := by
  intro l h; simp at h

theorem lenRes_exhausted {x : List CommitSuggestion} : LenRes (LoopResult.exhausted x) := by
  intro l h; simp at h

theorem lenRes_returned {x : List CommitSuggestion} (h2 : 2 ≤ x.length)
    (h5 : x.length ≤ 5) : LenRes (LoopResult.returned x) := by
  intro l h
  simp only [LoopResult.returned.injEq] at h
  rw [← h]
  exact ⟨h2, h5⟩

/-- Any list the retry loop returns from inside the loop (as opposed to
loop exhaustion) has at least two and at most five suggestions. -/
theorem runLoop_returned_length (gen : Nat → GenOutcome) :
    ∀ (fuel attempts : Nat) (best : List CommitSuggestion),
      LenRes (runLoop gen fuel attempts best) := by
  intro fuel
  induction fuel with
  | zero =>
    intro attempts best
    simp only [runLoop]
    exact lenRes_exhausted
  | succ n ih =>
    intro attempts best
    rw [runLoop]
    split
    · exact lenRes_exhausted
    · split
      · simp only []
        split
        · exact lenRes_rateLimited
        · split
          · exact lenRes_authFailed
          · split
            · split
              · exact lenRes_timedOut
              · exact ih _ _
            · exact ih _ _
      · split
        · exact ih _ _
        · split
          · exact ih _ _
          · simp only []
            split
            · rename_i hcond
              have hlen := two_le_of_meetsMin hcond.2
              refine lenRes_returned ?_ ?_ <;>
                rw [List.length_take, length_sortSingleFirst] <;> omega
            · split
              · exact ih _ _
              · split
                · rename_i hge
                  refine lenRes_returned ?_ ?_ <;> rw [List.length_take] <;> omega
                · exact ih _ _

end LoopLemmas

section Claims

open ConventionalCommitsValidator AIService

/-- Claim C4: for every run state in which the generator invocation of
the current attempt fails with a message whose lowercased text contains
quota or rate limit, the controller raises the rate-limit error
immediately on that attempt: the loop result is the rate-limit error for
every remaining fuel and every accumulated best set, so no further
attempt runs and neither the bestSoFar degraded result nor the fallback
synthesizer is used. -/
theorem c4_rate_limit_immediate (gen : Nat → GenOutcome) (fuel attempts : Nat)
    (best : List CommitSuggestion) (e : Str)
    (hlt : attempts < maxAttempts)
    (hgen : gen (attempts + 1) = GenOutcome.err e)
    (hq : containsSub "rate limit".data (toLowerStr e) = true ∨
          containsSub "quota".data (toLowerStr e) = true) :
    runLoop gen (fuel + 1) attempts best = LoopResult.rateLimited := by
  rw [runLoop, if_neg (Nat.not_le.mpr hlt), hgen]
  simp only []
  rcases hq with hq | hq <;> rw [if_pos (by simp [hq])]

/-- Witness for C4: a quota failure on the first attempt with a nonempty
best set still raises the rate-limit error. -/
theorem c4_rate_limit_immediate_witness :
    runLoop genQuota 3 0 [sugAA] = LoopResult.rateLimited :=
  c4_rate_limit_immediate genQuota 2 0 [sugAA] "Quota exceeded for project".data
    (by decide) rfl (Or.inr (by decide))

/-- Claim C6: when the first line of a message does not match the base
subject pattern, validate reports invalid with exactly one error, and
parse returns none rather than raising. -/
theorem c6_unmatched_subject (m : Str)
    (h : matchCommitPattern (line0 m) = none) :
    (validate m).valid = false ∧ (validate m).errors.length = 1 ∧
      parseCommitMessage m = none := by
  have hp : parseCommitMessage m = none := by
    unfold parseCommitMessage
    rw [h]
  unfold validate
  split
  · exact ⟨rfl, rfl, hp⟩
  · rw [h]
    exact ⟨rfl, rfl, hp⟩

/-- Witness for C6 at a concrete unmatched message. -/
theorem c6_unmatched_subject_witness :
    (validate "hello".data).valid = false ∧
    (validate "hello".data).errors.length = 1 ∧
    parseCommitMessage "hello".data = none :=
  c6_unmatched_subject "hello".data (by decide)

/-- Claim C7: the acceptance policy holds exactly when the set has at
least two suggestions and at least one of them is single-line. -/
theorem c7_meets_policy_iff (l : List CommitSuggestion) :
    meetsMinimumRequirements l = true ↔
      (2 ≤ l.length ∧ ∃ s ∈ l, s.type = SuggestionKind.singleLine) := by
  unfold meetsMinimumRequirements
  constructor
  · intro h
    split at h
    · simp at h
    · split at h
      · simp at h
      · rename_i h1 h2
        refine ⟨by omega, ?_⟩
        have hne : l.filter (fun s => s.type == SuggestionKind.singleLine) ≠ [] := by
          intro hnil
          rw [hnil] at h2
          simp at h2
        obtain ⟨s, hs⟩ := List.exists_mem_of_ne_nil _ hne
        have hm := List.mem_filter.mp hs
        exact ⟨s, hm.1, by simpa using hm.2⟩
  · rintro ⟨h2, s, hsl, hty⟩
    split
    · rename_i hbad
      exact absurd h2 (by omega)
    · split
      · rename_i h1 hflt
        exfalso
        have hmem : s ∈ l.filter (fun s => s.type == SuggestionKind.singleLine) :=
          List.mem_filter.mpr ⟨hsl, by simp [hty]⟩
        have hpos := List.length_pos_of_mem hmem
        omega
      · rfl

/-- Counterexample to C8 as stated: on the response consisting of the
single message feat colon a, strategies one to four leave exactly one
candidate, yet the strategy-5 scan does not run, because the guard in the
source compares the count with zero, not with one. -/
theorem c8_counterexample :
    (stage4 "feat: a".data).length = 1 ∧
    strategyFiveAttempted "feat: a".data = false := by
  exact ⟨by decide, by decide⟩

/-- Claim C8 (amended): the strategy-5 scan runs exactly when the
response is not blank and strategies one to four produced zero
candidates; a single leftover candidate skips it. -/
theorem c8_strategy5_iff_zero (r : Str) :
    strategyFiveAttempted r = true ↔
      ((jsTrim r).isEmpty = false ∧ (stage4 r).length = 0) := by
  unfold strategyFiveAttempted
  rw [Bool.and_eq_true, Bool.not_eq_true']
  rw [List.isEmpty_iff, List.length_eq_zero]

/-- Claim C10: whenever the subject line matches the base pattern and the
text BREAKING CHANGE: occurs anywhere in the message, parse reports a
breaking change, with or without the bang marker. -/
theorem c10_breaking_from_marker (m : Str) (mr : CommitMatch)
    (h : matchCommitPattern (line0 m) = some mr)
    (hb : containsSub "BREAKING CHANGE:".data m = true) :
    parseCommitMessage m = some
      { type := mr.type,
        scope := mr.scopeWithParens.map (fun s => (s.drop 1).dropLast),
        breaking := true,
        description := mr.description,
        body := if 2 < (splitOnNl m).length
          then some (jsTrim (List.intercalate ['\n'] ((splitOnNl m).drop 2)))
          else none } := by
  unfold parseCommitMessage
  rw [h]
  simp [hb]

/-- Witness for C10: a message without the bang but with the marker in
the body parses with breaking true. -/
theorem c10_breaking_from_marker_witness :
    parseCommitMessage "feat: x\n\nBREAKING CHANGE: api".data = some
      { type := "feat".data, scope := none, breaking := true,
        description := "x".data, body := some "BREAKING CHANGE: api".data } :=
  c10_breaking_from_marker "feat: x\n\nBREAKING CHANGE: api".data
    ⟨"feat".data, none, false, "x".data⟩ (by decide) (by decide)

end Claims

section ClaimsTwo

open ConventionalCommitsValidator AIService

/-- Claim C1 (amended): every suggestion list the retry controller
produces through the generator-derived paths — the policy-satisfying
return, the two-or-more return, and the degraded bestSoFar path at loop
exhaustion — contains only messages the validator accepts, and each of
those messages re-parses to a non-null decomposition. The original claim
extended this guarantee to the fallback-synthesizer path, which the
counterexample refutes. -/
theorem c1_generator_paths_validated (gen : Nat → GenOutcome)
    (fuel attempts : Nat) (best l : List CommitSuggestion)
    (hbest : ∀ s ∈ best, (validate s.message).valid = true)
    (hres : runLoop gen fuel attempts best = LoopResult.returned l ∨
            runLoop gen fuel attempts best = LoopResult.exhausted l) :
    ∀ s ∈ l, (validate s.message).valid = true ∧
      (parseCommitMessage s.message).isSome = true :=
  runLoop_validated gen fuel attempts best hbest l hres

/-- Witness for C1: a concrete run whose loop returns two suggestions;
the first one validates and re-parses. -/
theorem c1_generator_paths_validated_witness :
    (validate "feat: aa".data).valid = true ∧
    (parseCommitMessage "feat: aa".data).isSome = true :=
  c1_generator_paths_validated genW 3 0 [] [sugAA, sugBB]
    (fun s hs => absurd hs (List.not_mem_nil s))
    (Or.inl (by decide)) sugAA (List.mem_cons_self _ _)

/-- Counterexample to C1 as stated: with a generator that always fails
with an unclassified error, the run falls through to the fallback
synthesizer and returns its message as the sole suggestion, and that
message fails the validator, because its subject line is ninety-four
characters long. -/
theorem c1_counterexample :
    generateCommitMessages c1Diff genBoom =
      RunResult.suggestions
        [{ message := c1FallbackMsg, type := SuggestionKind.singleLine }] ∧
    (validate c1FallbackMsg).valid = false := by
  exact ⟨by decide, by decide⟩

/-- Claim C2 (amended): a set the controller returns from inside the
retry loop, before attempt exhaustion, always has at least two (and at
most five) suggestions; the policy path returns policy-satisfying sorted
sets, but a set with two or more valid suggestions and no single-line one
is also returned immediately, so satisfying meetsPolicy is not necessary
for an early return. The original claim, that only policy-satisfying sets
are returned early, is refuted by the counterexample. -/
theorem c2_returned_implies_two_suggestions (gen : Nat → GenOutcome)
    (fuel attempts : Nat) (best l : List CommitSuggestion)
    (hres : runLoop gen fuel attempts best = LoopResult.returned l) :
    2 ≤ l.length ∧ l.length ≤ 5 :=
  runLoop_returned_length gen fuel attempts best l hres

/-- Witness for C2: the concrete run of genW returns a two-element list. -/
theorem c2_returned_implies_two_suggestions_witness :
    2 ≤ ([sugAA, sugBB] : List CommitSuggestion).length ∧
    ([sugAA, sugBB] : List CommitSuggestion).length ≤ 5 :=
  c2_returned_implies_two_suggestions genW 3 0 [] [sugAA, sugBB] (by decide)

/-- Counterexample to C2 as stated: the first attempt of genC2 evaluates
to two valid multi-line suggestions, a set that fails meetsPolicy (no
single-line member), yet the controller returns it from inside the loop
on that first attempt — the remaining attempts would have raised the
rate-limit error, so the run did not reach them. -/
theorem c2_counterexample :
    runLoop genC2 maxAttempts 0 [] = LoopResult.returned [c2SugA, c2SugB] ∧
    meetsMinimumRequirements [c2SugA, c2SugB] = false ∧
    generateCommitMessages emptyDiff genC2 = RunResult.suggestions [c2SugA, c2SugB] := by
  exact ⟨by decide, by decide, by decide⟩

/-- Claim C3 (amended): a timeout on the final attempt makes the
controller raise the timeout failure immediately: the loop result is the
timeout error no matter what bestSoFar holds, so neither the degraded
bestSoFar result nor the fallback synthesizer is reached. The original
claim, that the run remains eligible for those fallback steps, is refuted
by the counterexample. -/
theorem c3_final_timeout_raises (gen : Nat → GenOutcome) (fuel attempts : Nat)
    (best : List CommitSuggestion) (e : Str)
    (hlt : attempts < maxAttempts)
    (hfin : maxAttempts ≤ attempts + 1)
    (hgen : gen (attempts + 1) = GenOutcome.err e)
    (ht : (containsSub "timeout".data (toLowerStr e) ||
           containsSub "request timeout".data (toLowerStr e)) = true)
    (hnq : (containsSub "rate limit".data (toLowerStr e) ||
            containsSub "quota".data (toLowerStr e)) = false)
    (hna : (containsSub "api key".data (toLowerStr e) ||
            containsSub "auth".data (toLowerStr e) ||
            containsSub "permission".data (toLowerStr e)) = false) :
    runLoop gen (fuel + 1) attempts best = LoopResult.timedOut := by
  rw [runLoop, if_neg (Nat.not_le.mpr hlt), hgen]
  simp only []
  rw [if_neg (by rw [hnq]; simp), if_neg (by rw [hna]; simp), if_pos ht, if_pos hfin]

/-- Witness for C3: a timeout message on the third attempt with a
nonempty best set yields the timeout error. -/
theorem c3_final_timeout_raises_witness :
    runLoop genRT 1 2 [c3Sug] = LoopResult.timedOut :=
  c3_final_timeout_raises genRT 0 2 [c3Sug] "Request timeout".data
    (by decide) (by decide) rfl (by decide) (by decide) (by decide)

/-- Counterexample to C3 as stated: the first attempt of genC3 stores one
valid suggestion in bestSoFar, the second and third attempts time out,
and the run ends in the timeout error instead of returning the nonempty
bestSoFar or consulting the fallback synthesizer. -/
theorem c3_counterexample :
    genC3 1 = GenOutcome.ok "feat: add login".data ∧
    filterValidSuggestions (parseResponse "feat: add login".data) = [c3Sug] ∧
    generateCommitMessages emptyDiff genC3 = RunResult.timeoutError := by
  exact ⟨by decide, by decide, by decide⟩

end ClaimsTwo

section ClaimsThree

open ConventionalCommitsValidator AIService

/-- Shape lemma for a five-part conditional error list: its length is the
number of raised conditions and it is empty exactly when the first
condition holds and the other four fail. The conditions are abstract, so
the lemma applies to the error list built by validate. -/
theorem errlist_shape (c1 c2 c3 c4 c5 : Prop)
    [Decidable c1] [Decidable c2] [Decidable c3] [Decidable c4] [Decidable c5]
    (e1 e2 e3 e4 e5 : Str) :
    (((if c1 then ([] : List Str) else [e1]) ++
      (if c2 then [e2] else []) ++ (if c3 then [e3] else []) ++
      (if c4 then [e4] else []) ++ (if c5 then [e5] else [])).length =
      ((if c1 then 0 else 1) + (if c2 then 1 else 0) + (if c3 then 1 else 0) +
       (if c4 then 1 else 0) + (if c5 then 1 else 0))) ∧
    (((if c1 then ([] : List Str) else [e1]) ++
      (if c2 then [e2] else []) ++ (if c3 then [e3] else []) ++
      (if c4 then [e4] else []) ++ (if c5 then [e5] else [])).isEmpty = true ↔
      (c1 ∧ ¬c2 ∧ ¬c3 ∧ ¬c4 ∧ ¬c5)) := by
  split_ifs <;> simp_all

/-- Claim C5: for every message whose first line matches the base subject
pattern, validate runs all five independent checks without
short-circuiting: the number of errors is exactly the number of violated
rules (unknown type, empty description, uppercase-first description,
subject longer than seventy-two characters, non-blank second line), and
the result is valid exactly when no rule is violated — in particular,
grammar-conforming messages with a nonempty lowercase-first description,
a short subject, and a blank second line validate with no errors. -/
theorem c5_validate_runs_all_checks (m : Str) (mr : CommitMatch)
    (h : matchCommitPattern (line0 m) = some mr) :
    (validate m).errors.length =
      ((if VALID_TYPES.contains mr.type then 0 else 1) +
       (if mr.description.isEmpty || (jsTrim mr.description).isEmpty then 1 else 0) +
       (if !mr.description.isEmpty && startsWithUpper mr.description then 1 else 0) +
       (if 72 < (line0 m).length then 1 else 0) +
       (if 1 < (splitOnNl m).length ∧ (jsTrim ((splitOnNl m).getD 1 [])).isEmpty = false
         then 1 else 0)) ∧
    ((validate m).valid = true ↔
      (VALID_TYPES.contains mr.type = true ∧
       ¬((mr.description.isEmpty || (jsTrim mr.description).isEmpty) = true) ∧
       ¬((!mr.description.isEmpty && startsWithUpper mr.description) = true) ∧
       ¬(72 < (line0 m).length) ∧
       ¬(1 < (splitOnNl m).length ∧
         (jsTrim ((splitOnNl m).getD 1 [])).isEmpty = false))) := by
  have htrim := trim_not_empty_of_match h
  have key := errlist_shape (VALID_TYPES.contains mr.type = true)
    ((mr.description.isEmpty || (jsTrim mr.description).isEmpty) = true)
    ((!mr.description.isEmpty && startsWithUpper mr.description) = true)
    (72 < (line0 m).length)
    (1 < (splitOnNl m).length ∧ (jsTrim ((splitOnNl m).getD 1 [])).isEmpty = false)
    (typeErrorMsg mr.type) descEmptyErrorMsg descUpperErrorMsg
    subjectLengthErrorMsg blankLineErrorMsg
  unfold validate
  rw [htrim]
  simp only [Bool.false_eq_true, if_false]
  rw [h]
  simp only []
  exact key

/-- Witness for C5: a well-formed concrete message validates with no
errors; both conclusions of the claim theorem are checked at it. -/
theorem c5_validate_runs_all_checks_witness :
    (validate "feat: add".data).valid = true := by
  have h := c5_validate_runs_all_checks "feat: add".data
    ⟨"feat".data, none, false, "add".data⟩ (by decide)
  exact h.2.mpr (by refine ⟨?_, ?_, ?_, ?_, ?_⟩ <;> decide)

/-- Claim C9 (amended): the fallback synthesizer is total — it returns a
string for every diff — and it returns the message fix colon update
fix_login.ts whenever the lowercased combined diff contains bug and the
first unified-diff marker line among the first five lines of the combined
text is the fix_login marker line. The original claim only required the
marker line to occur somewhere in the staged text, which the
counterexample refutes: an earlier marker line, or a position past the
first five lines, changes the output. -/
theorem c9_synthesize_total_and_marker (d : GitDiff) :
    (generateFallbackMessage d).isSome = true ∧
    (containsSub "bug".data (toLowerStr (d.staged ++ '\n' :: d.unstaged)) = true →
     (((splitOnNl (toLowerStr (d.staged ++ '\n' :: d.unstaged))).take 5).filter
        (fun l => "+++".data.isPrefixOf l || "---".data.isPrefixOf l)).head? =
          some "+++ b/src/fix_login.ts".data →
     generateFallbackMessage d = some "fix: update fix_login.ts".data) := by
  constructor
  · unfold generateFallbackMessage
    simp only []
    split <;> simp
  · intro hbug hhead
    unfold generateFallbackMessage
    simp only []
    cases hfc : ((splitOnNl (toLowerStr (d.staged ++ '\n' :: d.unstaged))).take 5).filter
        (fun l => "+++".data.isPrefixOf l || "---".data.isPrefixOf l) with
    | nil => rw [hfc] at hhead; simp at hhead
    | cons first rest =>
      rw [hfc] at hhead
      simp only [List.head?_cons, Option.some.injEq] at hhead
      subst hhead
      simp only [hbug, Bool.or_true, Bool.true_or, eq_self_iff_true, if_true]
      decide

/-- Witness for C9: a diff whose staged text starts with the fix_login
marker line and mentions bug synthesizes the expected message. -/
theorem c9_synthesize_total_and_marker_witness :
    containsSub "bug".data (toLowerStr (c9wDiff.staged ++ '\n' :: c9wDiff.unstaged)) = true ∧
    generateFallbackMessage c9wDiff = some "fix: update fix_login.ts".data :=
  ⟨by decide, (c9_synthesize_total_and_marker c9wDiff).2 (by decide) (by decide)⟩

/-- Counterexample to C9 as stated: a staged text that contains the line
plus-plus-plus b slash src slash fix_login.ts and mentions bug, but whose
first marker line is a different file, synthesizes fix colon update
other.ts, not fix colon update fix_login.ts. -/
theorem c9_counterexample :
    (splitOnNl c9Staged).contains "+++ b/src/fix_login.ts".data = true ∧
    containsSub "bug".data (toLowerStr (c9Diff.staged ++ '\n' :: c9Diff.unstaged)) = true ∧
    generateFallbackMessage c9Diff = some "fix: update other.ts".data ∧
    generateFallbackMessage c9Diff ≠ some "fix: update fix_login.ts".data := by
  exact ⟨by decide, by decide, by decide, by decide⟩

end ClaimsThree
